import Mathlib

/-!
Shallow embedding of the pyBPL snapshot (rendering pipeline, part
type/token hierarchy and motor conversion, spatial model constructor,
CPD scale model, bottom-up random walker) over exact rational
arithmetic, with theorems settling the specification claims.

Conventions:
* torch tensors of 2-D points become `List (ℚ × ℚ)`; an (H,W) image
  becomes a flat row-major `List ℚ` together with its dimensions.
* floating point becomes ℚ; `torch.floor`/`torch.ceil` become the exact
  integer floor/ceiling on ℚ.
* the Euclidean norm used by `add_stroke` calls a square-root routine on
  the squared distance; ℚ has no square root, so the embedding is
  parametric in a function `sq : ℚ → ℚ` standing for it, and every
  theorem either holds for all `sq` or fixes its value on the perfect
  squares actually reached.
* fallible code (Python `assert`, `raise`) returns `Option`/`Except`.
-/

abbrev Point : Type := ℚ × ℚ

/-- Row-major (H,W) image probability map, the `torch.Tensor` pimg. -/
structure Img where
  H : ℕ
  W : ℕ
  data : List ℚ
deriving Repr

/-- Zero-initialized image of the parameter-given size, as in
`render_image`'s `torch.zeros(ps.imsize)`. -/
def zeroImg (H W : ℕ) : Img :=
  ⟨H, W, List.replicate (H * W) 0⟩

/-- Broadening-mode enumeration from `Parameters.broaden_mode`; the
source raises a fatal error on any other string, so the embedding keeps
just the two valid values. -/
inductive BroadenMode where
  | Lake : BroadenMode
  | Hinton : BroadenMode
deriving DecidableEq, Repr

/-- Modelled from the spec: the `Parameters` configuration struct
(`pybpl/parameters.py`, not part of this snapshot) holding the rendering
constants read by `rendering.py`: ink amount per point, maximum ink
spread distance, broadening kernel coefficients, broadening iteration
count, blur filter size, image size, broadening mode. -/
structure Params where
  ink_pp : ℚ
  ink_max_dist : ℚ
  ink_a : ℚ
  ink_b : ℚ
  ink_ncon : ℕ
  fsize : ℕ
  imsizeH : ℕ
  imsizeW : ℕ
  broaden_mode : BroadenMode

/-- `check_bounds` on a single 2-D point: out of bounds iff the floor of
a coordinate is negative or its ceiling reaches the corresponding image
dimension, per axis, OR-combined (rendering.py lines 27-31). -/
def point_out_of_bounds (H W : ℕ) (p : Point) : Bool :=
  (decide (⌊p.1⌋ < 0) || decide ((H : ℤ) ≤ ⌈p.1⌉)) ||
  (decide (⌊p.2⌋ < 0) || decide ((W : ℤ) ≤ ⌈p.2⌉))

/-- `check_bounds(myt, imsize)`: boolean vector marking which points of
a (k,2) matrix are out of the image boundary. -/
def check_bounds (myt : List Point) (imsize : ℕ × ℕ) : List Bool :=
  myt.map (point_out_of_bounds imsize.1 imsize.2)

/-- Modelled from the spec: `util.general.sub2ind` (not in this
snapshot), the flattening of a 2-D index used before `scatter_add`;
row-major like the tensor's flat view. -/
def sub2ind (imsize : ℕ × ℕ) (x y : ℤ) : ℤ :=
  x * imsize.2 + y

/-- Add `v` to entry `i` of a flat image buffer (one `scatter_add`
contribution; duplicates accumulate because addition is folded). -/
def addFlat (dat : List ℚ) (i : ℕ) (v : ℚ) : List ℚ :=
  dat.set i (dat.getD i 0 + v)

/-- `seqadd(D, lind_x, lind_y, inkval)`: drop out-of-bounds adding
points (via `check_bounds` against `D`'s shape), convert coordinates to
integers (`.long()`; the kept coordinates are nonnegative integral
values, where truncation and floor agree), flatten with `sub2ind` and
accumulate into the image. -/
def seqadd (D : Img) (lind_x lind_y inkval : List ℚ) : Img :=
  let triples := (lind_x.zip lind_y).zip inkval
  let kept := triples.filter fun t => ! point_out_of_bounds D.H D.W t.1
  ⟨D.H, D.W,
    kept.foldl
      (fun dat t => addFlat dat (sub2ind (D.H, D.W) ⌊t.1.1⌋ ⌊t.1.2⌋).toNat t.2)
      D.data⟩

/-- `torch.flip(pt, dims=[-1])` on one 2-D point. -/
def flipPoint (p : Point) : Point :=
  (p.2, p.1)

/-- The `space_flip` constant tensor `[-1., 1.]`. -/
def space_flip : Point :=
  (-1, 1)

/-- Elementwise product of two 2-D points. -/
def pointMul (a b : Point) : Point :=
  (a.1 * b.1, a.2 * b.2)

/-- `space_motor_to_img(pt)`: flip the coordinate order of every point
and multiply elementwise by `space_flip` (rendering.py lines 97-99). -/
def space_motor_to_img (pt : List Point) : List Point :=
  pt.map fun p => pointMul (flipPoint p) space_flip

/-- The per-point ink weights of `add_stroke` (rendering.py lines
139-145), parametric in the square-root routine `sq` used by
`torch.norm`: consecutive Euclidean distances clamped at
`ink_max_dist`, first entry duplicated, scaled by
`ink_pp / ink_max_dist`; a single-point trajectory gets `[ink_pp]`. -/
def rawInk (sq : ℚ → ℚ) (ps : Params) (stk : List Point) : List ℚ :=
  if stk.length = 1 then [ps.ink_pp]
  else
    let dist := (stk.zip stk.tail).map fun pq =>
      min (sq ((pq.2.1 - pq.1.1) ^ 2 + (pq.2.2 - pq.1.2) ^ 2)) ps.ink_max_dist
    (dist.take 1 ++ dist).map fun d => ps.ink_pp * d / ps.ink_max_dist

/-- The ink renormalization of `add_stroke` (rendering.py lines
149-154), verbatim: below 2.22e-6 the weights are overwritten with a
uniform fill summing to `ink_pp`; below `ink_pp` the weights are scaled
by `ink_pp / sumink` twice (the in-place `mul_` on line 153 followed by
the `torch.mul` on line 154). -/
def renormInk (ps : Params) (myink : List ℚ) : List ℚ :=
  let sumink := myink.sum
  if sumink < 222 / 100000000 then
    List.replicate myink.length (ps.ink_pp / myink.length)
  else if sumink < ps.ink_pp then
    (myink.map fun v => v * (ps.ink_pp / sumink)).map fun v =>
      v * (ps.ink_pp / sumink)
  else myink

/-- `add_stroke(pimg, stk, ps)`: convert the stroke to image space, drop
out-of-bounds points (unchanged image with the off-page flag if all are
out), compute and renormalize per-point ink, check the
`sum(myink) > ink_pp - 1e-4` assertion (`none` on failure), and splat
the ink bilinearly onto the four integer neighbors of each point via
`seqadd`. -/
def add_stroke (sq : ℚ → ℚ) (pimg : Img) (stk : List Point) (ps : Params) :
    Option (Img × Bool) :=
  let stk1 := space_motor_to_img stk
  let out := check_bounds stk1 (pimg.H, pimg.W)
  let ink_off_page := out.any id
  if out.all id then some (pimg, ink_off_page)
  else
    let stk2 := (stk1.zip out).filterMap fun pb =>
      if pb.2 then none else some pb.1
    let myink := renormInk ps (rawInk sq ps stk2)
    if myink.sum > ps.ink_pp - 1 / 10000 then
      let x := stk2.map Prod.fst
      let y := stk2.map Prod.snd
      let xfloor := x.map fun v => ((⌊v⌋ : ℤ) : ℚ)
      let yfloor := y.map fun v => ((⌊v⌋ : ℤ) : ℚ)
      let xceil := x.map fun v => ((⌈v⌉ : ℤ) : ℚ)
      let yceil := y.map fun v => ((⌈v⌉ : ℤ) : ℚ)
      let x_c_ratio := List.zipWith (· - ·) x xfloor
      let y_c_ratio := List.zipWith (· - ·) y yfloor
      let x_f_ratio := x_c_ratio.map fun v => 1 - v
      let y_f_ratio := y_c_ratio.map fun v => 1 - v
      let mi1 := List.zipWith (· * ·) (List.zipWith (· * ·) myink x_f_ratio) y_f_ratio
      let mi2 := List.zipWith (· * ·) (List.zipWith (· * ·) myink x_c_ratio) y_f_ratio
      let mi3 := List.zipWith (· * ·) (List.zipWith (· * ·) myink x_f_ratio) y_c_ratio
      let mi4 := List.zipWith (· * ·) (List.zipWith (· * ·) myink x_c_ratio) y_c_ratio
      let p1 := seqadd pimg xfloor yfloor mi1
      let p2 := seqadd p1 xceil yfloor mi2
      let p3 := seqadd p2 xfloor yceil mi3
      let p4 := seqadd p3 xceil yceil mi4
      some (p4, ink_off_page)
    else none

/-- Pixel access with zero padding outside the image, used by the
convolution. -/
def Img.pix (D : Img) (i j : ℤ) : ℚ :=
  if 0 ≤ i ∧ i < (D.H : ℤ) ∧ 0 ≤ j ∧ j < (D.W : ℤ) then
    D.data.getD (i.toNat * D.W + j.toNat) 0
  else 0

/-- Modelled from the spec: `util.general.imfilter(pimg, K, mode='conv')`
(not in this snapshot): 2-D convolution of the image with kernel `K`,
zero padding, output the same size as the input. -/
def imfilter (D : Img) (K : List (List ℚ)) : Img :=
  let kH := K.length
  let kW := (K.getD 0 []).length
  let cH := kH / 2
  let cW := kW / 2
  ⟨D.H, D.W,
    (List.range (D.H * D.W)).map fun idx =>
      let i := idx / D.W
      let j := idx % D.W
      ((List.range kH).map fun p =>
        ((List.range kW).map fun q =>
          (K.getD p []).getD q 0 *
            D.pix ((i : ℤ) + (cH : ℤ) - (p : ℤ)) ((j : ℤ) + (cW : ℤ) - (q : ℤ))).sum).sum⟩

/-- The broadening 3×3 kernel `h_scale * [[a/12,a/6,a/12],[a/6,1-a,a/6],
[a/12,a/6,a/12]]` with `h_scale = b` under "Lake" and `b*(1+a)` under
"Hinton" (rendering.py lines 202-217). -/
def H_broaden (ps : Params) : List (List ℚ) :=
  let a := ps.ink_a
  let b := ps.ink_b
  let h_scale : ℚ :=
    match ps.broaden_mode with
    | BroadenMode.Lake => b
    | BroadenMode.Hinton => b * (1 + a)
  [[h_scale * (a / 12), h_scale * (a / 6), h_scale * (a / 12)],
   [h_scale * (a / 6), h_scale * (1 - a), h_scale * (a / 6)],
   [h_scale * (a / 12), h_scale * (a / 6), h_scale * (a / 12)]]

/-- Apply `f` to an image `n` times (`for i in range(ps.ink_ncon)`). -/
def iterApply (f : Img → Img) : ℕ → Img → Img
  | 0, D => D
  | n + 1, D => iterApply f n (f D)

/-- `pimg.clamp_(None, 1)`: upper clamp only. -/
def clampMax1 (D : Img) : Img :=
  ⟨D.H, D.W, D.data.map fun v => min v 1⟩

/-- `pimg.clamp_(0, 1)`. -/
def clamp01 (D : Img) : Img :=
  ⟨D.H, D.W, D.data.map fun v => min (max v 0) 1⟩

/-- `broaden_and_blur(pimg, blur_sigma, ps)`: `ink_ncon` convolutions
with the broadening kernel, upper clamp at 1, two Gaussian convolutions
when `blur_sigma > 0`, final clamp to [0,1].  Parametric in `fsp`, the
Gaussian-kernel builder standing for the missing
`util.general.fspecial`. -/
def broaden_and_blur (fsp : ℕ → ℚ → List (List ℚ)) (D : Img)
    (blur_sigma : ℚ) (ps : Params) : Img :=
  let D1 := iterApply (fun I => imfilter I (H_broaden ps)) ps.ink_ncon D
  let D2 := clampMax1 D1
  let D3 :=
    if 0 < blur_sigma then
      imfilter (imfilter D2 (fsp ps.fsize blur_sigma)) (fsp ps.fsize blur_sigma)
    else D2
  clamp01 D3

/-- The stroke-accumulation loop of `render_image` (rendering.py lines
269-271): fold `add_stroke` over the stroke list, OR-ing the off-page
flags; `none` propagates an ink assertion failure. -/
def accumStrokes (sq : ℚ → ℚ) (ps : Params) :
    List (List Point) → Img → Bool → Option (Img × Bool)
  | [], D, flag => some (D, flag)
  | stk :: rest, D, flag =>
    match add_stroke sq D stk ps with
    | none => none
    | some (D2, f2) => accumStrokes sq ps rest D2 (flag || f2)

/-- The noise blend applied to one pixel when `epsilon > 0`:
`(1-epsilon)*pimg + epsilon*(1-pimg)` (rendering.py line 278). -/
def blendPix (epsilon v : ℚ) : ℚ :=
  (1 - epsilon) * v + epsilon * (1 - v)

/-- The noise blend applied to the whole image. -/
def blendImg (epsilon : ℚ) (D : Img) : Img :=
  ⟨D.H, D.W, D.data.map (blendPix epsilon)⟩

/-- `render_image(strokes, epsilon, blur_sigma, ps)`: accumulate every
stroke into a zero image, broaden and blur, and blend toward uniform
noise iff `epsilon > 0`; returns the probability map with the off-page
flag. -/
def render_image (sq : ℚ → ℚ) (fsp : ℕ → ℚ → List (List ℚ))
    (strokes : List (List Point)) (epsilon blur_sigma : ℚ) (ps : Params) :
    Option (Img × Bool) :=
  (accumStrokes sq ps strokes (zeroImg ps.imsizeH ps.imsizeW) false).map
    fun r =>
      let p1 := broaden_and_blur fsp r.1 blur_sigma ps
      (if 0 < epsilon then blendImg epsilon p1 else p1, r.2)

/-!
Embedding of `objects/part.py`.  A stroke's `shapes` tensor
(ncpt, 2, nsub) is represented sub-stroke-major as a list of `nsub`
control-point lists; `splines.get_stk_from_bspline` is not in this
snapshot, so `vanilla_to_motor` is parametric in the B-spline evaluator
`se` (spec: evaluate a fixed-degree B-spline through `neval` points).
-/

/-- The loop body chain of `vanilla_to_motor` (part.py lines 316-326):
scale sub-stroke `i`'s control points by `invscales[i]`, evaluate the
spline, translate the trajectory (and the scaled control points) so the
first evaluated point continues from `prev`, and recurse with the last
evaluated point.  `none` models the IndexError when `invscales` is
shorter than the sub-stroke count. -/
def v2mGo (se : List Point → ℕ → List Point) (neval : ℕ) :
    List (List Point) → List ℚ → Point →
    Option (List (List Point) × List (List Point))
  | [], _, _ => some ([], [])
  | _ :: _, [], _ => none
  | cpts :: ss, s :: is, prev =>
    let scaled := cpts.map fun p => (s * p.1, s * p.2)
    let traj := se scaled neval
    let off := (traj.getD 0 (0, 0)) - prev
    let motor_i := traj.map fun p => p - off
    let ms_i := scaled.map fun p => p - off
    match v2mGo se neval ss is (motor_i.getLastD (0, 0)) with
    | none => none
    | some (m, msp) => some (motor_i :: m, ms_i :: msp)

/-- `vanilla_to_motor(shapes, invscales, first_pos, neval=200)`: per
sub-stroke evaluated trajectory and translated spline control points. -/
def vanilla_to_motor (se : List Point → ℕ → List Point)
    (shapes : List (List Point)) (invscales : List ℚ) (first_pos : Point)
    (neval : ℕ := 200) :
    Option (List (List Point) × List (List Point)) :=
  v2mGo se neval shapes invscales first_pos

/-- `StrokeToken.__init__` state: shapes and inverse-scale tokens, the
position initialized to `None`, and the x/y image bounds kept for
position optimization. -/
structure StrokeToken where
  shapes : List (List Point)
  invscales : List ℚ
  position : Option Point
  xlim : ℚ × ℚ
  ylim : ℚ × ℚ

/-- `StrokeToken(shapes, invscales, xlim, ylim)` sets `position = None`. -/
def mkStrokeToken (shapes : List (List Point)) (invscales : List ℚ)
    (xlim ylim : ℚ × ℚ) : StrokeToken :=
  ⟨shapes, invscales, none, xlim, ylim⟩

/-- `StrokeToken.motor`: asserts the position is set, then returns the
motor trajectory computed by `vanilla_to_motor` (part.py lines
214-224). -/
def StrokeToken.motor (se : List Point → ℕ → List Point)
    (tok : StrokeToken) : Except String (List (List Point)) :=
  match tok.position with
  | none => Except.error "AssertionError"
  | some pos =>
    match vanilla_to_motor se tok.shapes tok.invscales pos with
    | none => Except.error "IndexError"
    | some r => Except.ok r.1

/-- `StrokeToken.motor_spline`: asserts the position is set, then
returns the motor spline computed by `vanilla_to_motor` (part.py lines
226-236). -/
def StrokeToken.motor_spline (se : List Point → ℕ → List Point)
    (tok : StrokeToken) : Except String (List (List Point)) :=
  match tok.position with
  | none => Except.error "AssertionError"
  | some pos =>
    match vanilla_to_motor se tok.shapes tok.invscales pos with
    | none => Except.error "IndexError"
    | some r => Except.ok r.2

/-- One entry of the `parameters()` list of a `StrokeToken`. -/
inductive StrokeParam where
  | pshapes : List (List Point) → StrokeParam
  | pinv : List ℚ → StrokeParam
  | ppos : Point → StrokeParam
deriving DecidableEq

/-- `StrokeToken.parameters()`: the literal three-element list
`[shapes, invscales, position]`; the third entry is whatever `position`
currently holds, with no precondition check (part.py lines 238-249). -/
def StrokeToken.parameters (tok : StrokeToken) : List (Option StrokeParam) :=
  [some (StrokeParam.pshapes tok.shapes), some (StrokeParam.pinv tok.invscales),
    tok.position.map StrokeParam.ppos]

/-- The `for param in self.parameters(): param.requires_grad_(flag)`
loop of `PartToken.train`/`PartToken.eval` (part.py lines 167-179): it
raises (AttributeError) at the first `None` entry.  The gradient flag
itself carries no information in this embedding. -/
def requiresGradLoop : List (Option StrokeParam) → Except String Unit
  | [] => Except.ok ()
  | none :: _ => Except.error "AttributeError"
  | some _ :: rest => requiresGradLoop rest

/-- The shared body of `train()`/`eval()` on a stroke token. -/
def StrokeToken.setGradAll (tok : StrokeToken) (_flag : Bool) :
    Except String Unit :=
  requiresGradLoop tok.parameters

/-- `PartToken.train()` on a stroke token. -/
def StrokeToken.train (tok : StrokeToken) : Except String Unit :=
  tok.setGradAll true

/-- `PartToken.eval()` on a stroke token. -/
def StrokeToken.eval (tok : StrokeToken) : Except String Unit :=
  tok.setGradAll false

/-- One entry of the `lbs()`/`ubs()` lists of a `StrokeToken`. -/
inductive BoundVal where
  | binv : List ℚ → BoundVal
  | bpos : Point → BoundVal
deriving DecidableEq

/-- `StrokeToken.lbs(eps)`: `[None, full(invscales.shape, eps),
stack([xlim, ylim])[:,0] + eps]` (part.py lines 251-268); reads only
`invscales`, `xlim` and `ylim`, never `position`. -/
def StrokeToken.lbs (tok : StrokeToken) (eps : ℚ := 1 / 10000) :
    List (Option BoundVal) :=
  [none, some (BoundVal.binv (List.replicate tok.invscales.length eps)),
    some (BoundVal.bpos (tok.xlim.1 + eps, tok.ylim.1 + eps))]

/-- `StrokeToken.ubs(eps)`: `[None, None, stack([xlim, ylim])[:,1] - eps]`
(part.py lines 270-287). -/
def StrokeToken.ubs (tok : StrokeToken) (eps : ℚ := 1 / 10000) :
    List (Option BoundVal) :=
  [none, none, some (BoundVal.bpos (tok.xlim.2 - eps, tok.ylim.2 - eps))]

/-!
Embedding of `classes/spatial_model.py`.  `SpatialHist` is not in this
snapshot; per the spec it is a binned 2-D histogram fit on the training
positions it is given, so each histogram is represented here by exactly
that training data.
-/

/-- `SpatialModel.__init__(data_start, data_id, clump_id, ...)`: asserts
the label count equals the position count, then builds the `list_SH`
training sets: `data_start[data_id==i]` for `i in range(clump_id-1)`
followed by the pooled `data_start[data_id>=clump_id]` (spatial_model.py
lines 32-47). -/
def SpatialModel_list_SH (data_start : List Point) (data_id : List ℕ)
    (clump_id : ℕ) : Option (List (List Point)) :=
  if data_id.length = data_start.length then
    let pairs := data_start.zip data_id
    some
      (((List.range (clump_id - 1)).map fun i =>
          (pairs.filter fun pr => pr.2 == i).map Prod.fst) ++
        [(pairs.filter fun pr => decide (clump_id ≤ pr.2)).map Prod.fst])
  else none

/-- The label selector of the `i`-th per-index training set together
with the pooled selector, as laid down by the constructor: label = i for
`i in range(clump_id-1)`, then label ≥ clump_id. -/
def modelSelectors (clump_id : ℕ) : List (ℕ → Bool) :=
  ((List.range (clump_id - 1)).map fun i => fun l => l == i) ++
    [fun l => decide (clump_id ≤ l)]

/-!
Embedding of `CPD/cpd_scale.py`.  `CPDUnif` is not in this snapshot;
per the spec it is the uniform fallback sampler/scorer, represented here
by the `unif` result tag.  A library's `scale['theta']` table is a list
of (concentration, scale) rows.
-/

/-- A numpy/torch array with an explicit shape; `len()` is the leading
shape entry. -/
structure NDTensor (α : Type) where
  shape : List ℕ
  data : List α

/-- Python `len(t)` on a tensor: the first entry of its shape. -/
def NDTensor.len {α : Type} (t : NDTensor α) : ℕ :=
  t.shape.headD 0

/-- The library state read by the scale CPD: the uniform flag and the
Gamma parameter table `scale['theta']`. -/
structure Library where
  isunif : Bool
  scale_theta : List (ℚ × ℚ)

/-- `__get_dist(theta, subid)`: select each id's (concentration, scale)
row and convert scale to the rate parameterization `rate = 1/scale`
(cpd_scale.py lines 10-26). -/
def get_dist (theta : List (ℚ × ℚ)) (subid : List ℕ) : List (ℚ × ℚ) :=
  subid.map fun i =>
    let t := theta.getD i (0, 0)
    (t.1, 1 / t.2)

/-- Which branch a scale CPD call took: delegation to the uniform
fallback, or a Gamma distribution built with the given
(concentration, rate) parameters. -/
inductive ScaleResult where
  | unif : ScaleResult
  | gamma : List (ℚ × ℚ) → ScaleResult
deriving DecidableEq

/-- `sample_invscale_type(lib, subid)`: asserts `subid` is a vector;
delegates to `CPDUnif` when the library is uniform, otherwise builds the
Gamma distribution from `lib.scale['theta']` (cpd_scale.py lines
28-48). -/
def sample_invscale_type (lib : Library) (subid : NDTensor ℕ) :
    Except String ScaleResult :=
  if subid.shape.length ≠ 1 then Except.error "AssertionError"
  else if lib.isunif then Except.ok ScaleResult.unif
  else Except.ok (ScaleResult.gamma (get_dist lib.scale_theta subid.data))

/-- `score_invscale_type(lib, invscales, subid)`: asserts both inputs
are vectors of equal length; delegates to `CPDUnif` when the library is
uniform, otherwise builds the Gamma distribution (cpd_scale.py lines
50-72). -/
def score_invscale_type (lib : Library) (invscales : NDTensor ℚ)
    (subid : NDTensor ℕ) : Except String ScaleResult :=
  if invscales.shape.length ≠ 1 then Except.error "AssertionError"
  else if subid.shape.length ≠ 1 then Except.error "AssertionError"
  else if invscales.len ≠ subid.len then Except.error "AssertionError"
  else if lib.isunif then Except.ok ScaleResult.unif
  else Except.ok (ScaleResult.gamma (get_dist lib.scale_theta subid.data))

/-!
Embedding of `bottomup/initialize/random_walker.py`'s `sample()`.  The
walk builder `make()` relies on the `Walker` base class, which is not in
this snapshot; per the spec it is an effectful walk generator, modelled
as an opaque state-passing function `make : ρ → List α × ρ` over an
abstract random-number-generator state `ρ`.  `np.random.choice` over a
candidate array is modelled as indexing the array at a supplied draw
reduced modulo its length.
-/

/-- The walk produced by the `(k+1)`-th call of the walk builder when
started from state `r`. -/
def walkSeq {ρ α : Type} (make : ρ → List α × ρ) (r : ρ) : ℕ → List α
  | 0 => (make r).1
  | k + 1 => walkSeq make (make r).2 k

/-- The rejection loop of `sample()` (random_walker.py lines 40-43):
repeatedly call the walk builder until the walk length is at most
`max_len`; `fuel` bounds the unbounded Python loop, `none` meaning it
has not yet accepted. -/
def sampleLoop {ρ α : Type} (make : ρ → List α × ρ) (max_len : ℕ) :
    ℕ → ρ → Option (List α)
  | 0, _ => none
  | fuel + 1, r =>
    let wr := make r
    if wr.1.length ≤ max_len then some wr.1 else sampleLoop make max_len fuel wr.2

/-- `RandomWalker.sample()`: draw `exp_wt_start` from
`ps.int_exp_wt` and `lambda_soft` from `ps.int_lambda_soft` once (the
two `np.random.choice` calls, with draws `i1`, `i2`), then run the
rejection loop; returns the drawn parameters with the accepted walk. -/
def RandomWalker_sample {ρ α : Type} (int_exp_wt int_lambda_soft : List ℚ)
    (i1 i2 : ℕ) (make : ρ → List α × ρ) (max_len fuel : ℕ) (r : ρ) :
    (ℚ × ℚ) × Option (List α) :=
  let exp_wt_start := int_exp_wt.getD (i1 % int_exp_wt.length) 0
  let lambda_soft := int_lambda_soft.getD (i2 % int_lambda_soft.length) 0
  ((exp_wt_start, lambda_soft), sampleLoop make max_len fuel r)

/-!
Theorems.  Shared helper lemmas come first; each claim then gets one
theorem (with a witness when its statement carries hypotheses, and a
counterexample where the claim fails on the code).
-/

/-- Ceiling on ℚ as a negated floor, used to evaluate concrete ceilings. -/
theorem qceil_eq (q : ℚ) : ⌈q⌉ = -⌊-q⌋ := by
  rw [Int.floor_neg, neg_neg]

/-- C1.  The claim says `add_stroke` renormalizes a positive total below
`ink_pp` so that the splatted total equals exactly `ink_pp`; the code
multiplies by `ink_pp / sumink` twice (rendering.py line 153's in-place
`mul_` immediately followed by line 154's `torch.mul`), so on a
two-point in-bounds trajectory with natural total `ink_pp / 2 = 1` the
stroke deposits `ink_pp^2 / sumink = 4 = 2 * ink_pp` of ink, not
`ink_pp = 2`.  The hypothesis fixes the square-root routine at the one
perfect square reached (squared distance 1/4, distance 1/2). -/
theorem add_stroke_double_rescale_total (sq : ℚ → ℚ)
    (hsq : sq (1 / 4) = 1 / 2) :
    (add_stroke sq (zeroImg 4 4) [((1 : ℚ), (-2 : ℚ)), (1, -5 / 2)]
        ⟨2, 2, 1 / 2, 1, 2, 3, 4, 4, BroadenMode.Lake⟩).map
      (fun r => r.1.data.sum) = some 4 ∧
    (4 : ℚ) ≠ (⟨2, 2, 1 / 2, 1, 2, 3, 4, 4, BroadenMode.Lake⟩ : Params).ink_pp := by
  constructor
  · norm_num [add_stroke, zeroImg, space_motor_to_img, pointMul, flipPoint,
      space_flip, check_bounds, point_out_of_bounds, qceil_eq, rawInk,
      renormInk, seqadd, addFlat, sub2ind, hsq, List.zip, List.zipWith,
      List.set, List.getD, List.filter, List.filterMap, List.replicate,
      Int.toNat_ofNat, List.getD_eq_getElem?_getD, List.getElem?_cons_zero,
      List.getElem?_cons_succ]
    simp
    norm_num
  · norm_num

/-- C1 witness: the theorem applied to a concrete square-root routine. -/
theorem add_stroke_double_rescale_total_witness :
    ((fun q => if q = (1 : ℚ) / 4 then (1 : ℚ) / 2 else 0) (1 / 4) = 1 / 2) ∧
    ((add_stroke (fun q => if q = (1 : ℚ) / 4 then (1 : ℚ) / 2 else 0)
        (zeroImg 4 4) [((1 : ℚ), (-2 : ℚ)), (1, -5 / 2)]
        ⟨2, 2, 1 / 2, 1, 2, 3, 4, 4, BroadenMode.Lake⟩).map
      (fun r => r.1.data.sum) = some 4 ∧
    (4 : ℚ) ≠ (⟨2, 2, 1 / 2, 1, 2, 3, 4, 4, BroadenMode.Lake⟩ : Params).ink_pp) :=
  ⟨by norm_num,
    add_stroke_double_rescale_total
      (fun q => if q = (1 : ℚ) / 4 then (1 : ℚ) / 2 else 0) (by norm_num)⟩

/-- C3 counterexample: the point (19/2, 5) is strictly inside
[0,10) × [0,10), yet `check_bounds` marks it out of bounds, because
⌈19/2⌉ = 10 ≥ 10. -/
theorem check_bounds_interior_point_cex :
    check_bounds [((19 : ℚ) / 2, 5)] (10, 10) = [true] ∧
    (0 ≤ (19 : ℚ) / 2 ∧ (19 : ℚ) / 2 < 10 ∧ 0 ≤ (5 : ℚ) ∧ (5 : ℚ) < 10) := by
  constructor
  · simp [check_bounds, point_out_of_bounds]
    right
    rw [qceil_eq]
    norm_num
  · norm_num

/-- C3 (amended).  `check_bounds` marks a point out of bounds exactly
when, per axis, the floor is negative or the ceiling reaches the image
dimension; it returns true whenever a coordinate is negative or at/above
its dimension; and it returns false exactly on the closed box
[0, H-1] × [0, W-1] (not on all of [0, H) × [0, W): a non-integral
coordinate in (H-1, H) has ceiling H and is flagged). -/
theorem check_bounds_characterization (p : Point) (H W : ℕ) :
    (point_out_of_bounds H W p = true ↔
      (⌊p.1⌋ < 0 ∨ (H : ℤ) ≤ ⌈p.1⌉ ∨ ⌊p.2⌋ < 0 ∨ (W : ℤ) ≤ ⌈p.2⌉)) ∧
    ((p.1 < 0 ∨ (H : ℚ) ≤ p.1 ∨ p.2 < 0 ∨ (W : ℚ) ≤ p.2) →
      point_out_of_bounds H W p = true) ∧
    (point_out_of_bounds H W p = false ↔
      (0 ≤ p.1 ∧ p.1 ≤ (H : ℚ) - 1 ∧ 0 ≤ p.2 ∧ p.2 ≤ (W : ℚ) - 1)) ∧
    (∀ pts : List Point, check_bounds pts (H, W) =
      pts.map (point_out_of_bounds H W)) := by
  have hchar : point_out_of_bounds H W p = true ↔
      (⌊p.1⌋ < 0 ∨ (H : ℤ) ≤ ⌈p.1⌉ ∨ ⌊p.2⌋ < 0 ∨ (W : ℤ) ≤ ⌈p.2⌉) := by
    simp [point_out_of_bounds, or_assoc]
  refine ⟨hchar, ?_, ?_, fun pts => rfl⟩
  · intro h
    rw [hchar]
    rcases h with h | h | h | h
    · exact Or.inl (Int.floor_lt.mpr (by exact_mod_cast h))
    · refine Or.inr (Or.inl ?_)
      calc (H : ℤ) = ⌈(H : ℚ)⌉ := (Int.ceil_natCast H).symm
        _ ≤ ⌈p.1⌉ := Int.ceil_le_ceil h
    · exact Or.inr (Or.inr (Or.inl (Int.floor_lt.mpr (by exact_mod_cast h))))
    · refine Or.inr (Or.inr (Or.inr ?_))
      calc (W : ℤ) = ⌈(W : ℚ)⌉ := (Int.ceil_natCast W).symm
        _ ≤ ⌈p.2⌉ := Int.ceil_le_ceil h
  · have hfalse : point_out_of_bounds H W p = false ↔
        ¬(point_out_of_bounds H W p = true) := by
      cases h : point_out_of_bounds H W p <;> simp
    rw [hfalse, hchar]
    push_neg
    constructor
    · rintro ⟨h1, h2, h3, h4⟩
      refine ⟨?_, ?_, ?_, ?_⟩
      · have : (0 : ℤ) ≤ ⌊p.1⌋ := by omega
        exact_mod_cast (Int.le_floor.mp this).trans_eq rfl
      · have : ⌈p.1⌉ ≤ (H : ℤ) - 1 := by omega
        have := Int.ceil_le.mp this
        push_cast at this
        linarith
      · have : (0 : ℤ) ≤ ⌊p.2⌋ := by omega
        exact_mod_cast (Int.le_floor.mp this).trans_eq rfl
      · have : ⌈p.2⌉ ≤ (W : ℤ) - 1 := by omega
        have := Int.ceil_le.mp this
        push_cast at this
        linarith
    · rintro ⟨h1, h2, h3, h4⟩
      refine ⟨?_, ?_, ?_, ?_⟩
      · have : (0 : ℤ) ≤ ⌊p.1⌋ := Int.le_floor.mpr (by exact_mod_cast h1)
        omega
      · have : ⌈p.1⌉ ≤ (H : ℤ) - 1 := Int.ceil_le.mpr (by push_cast; linarith)
        omega
      · have : (0 : ℤ) ≤ ⌊p.2⌋ := Int.le_floor.mpr (by exact_mod_cast h3)
        omega
      · have : ⌈p.2⌉ ≤ (W : ℤ) - 1 := Int.ceil_le.mpr (by push_cast; linarith)
        omega

/-- C10.  `space_motor_to_img` maps every point (x, y) to (-y, x)
elementwise; applying it twice yields (-x, -y), which as a function is
not the identity. -/
theorem space_motor_to_img_spec (pts : List Point) :
    space_motor_to_img pts = pts.map (fun p => (-p.2, p.1)) ∧
    space_motor_to_img (space_motor_to_img pts) =
      pts.map (fun p => (-p.1, -p.2)) ∧
    ¬(∀ qs : List Point, space_motor_to_img (space_motor_to_img qs) = qs) := by
  refine ⟨?_, ?_, ?_⟩
  · simp [space_motor_to_img, pointMul, flipPoint, space_flip]
  · simp [space_motor_to_img, pointMul, flipPoint, space_flip]
  · intro h
    have := h [((1 : ℚ), (0 : ℚ))]
    simp [space_motor_to_img, pointMul, flipPoint, space_flip] at this
    exact absurd this (by norm_num)

/-- How often a label hits a membership test over an initial range of
indices. -/
theorem countP_range_beq (l n : ℕ) :
    (List.range n).countP (fun i => l == i) = if l < n then 1 else 0 := by
  induction n with
  | zero => simp
  | succ n ih =>
    rw [List.range_succ, List.countP_append, ih]
    by_cases h : l < n
    · have hne : l ≠ n := by omega
      simp [List.countP_cons, h, hne, Nat.lt_succ_of_lt h]
    · by_cases he : l = n
      · simp [List.countP_cons, he, Nat.lt_irrefl, Nat.lt_succ_self]
      · have : ¬ l < n + 1 := by omega
        simp [List.countP_cons, h, he, this]

/-- C2 counterexample: with clump_id = 2 and labels 0, 1, 2, the
constructor produces only two training sets — `range(clump_id-1)` covers
index 0 only and the pooled set takes labels ≥ 2 — so the position
labeled 1 (= clump_id - 1) appears in no histogram's training data,
not in exactly one. -/
theorem spatial_model_orphan_label_cex :
    SpatialModel_list_SH [((0 : ℚ), (0 : ℚ)), (1, 1), (2, 2)] [0, 1, 2] 2 =
      some [[((0 : ℚ), (0 : ℚ))], [((2 : ℚ), (2 : ℚ))]] ∧
    (SpatialModel_list_SH [((0 : ℚ), (0 : ℚ)), (1, 1), (2, 2)] [0, 1, 2] 2).map
      (fun ms => ms.countP fun m => decide (((1 : ℚ), (1 : ℚ)) ∈ m)) =
      some 0 := by
  constructor
  · decide
  · decide

/-- C2 (amended).  The constructor builds per-index histograms only for
stroke indices 0 .. clump_id - 2 (`range(clump_id-1)`), then one pooled
histogram on labels ≥ clump_id; so there are (clump_id - 1) + 1 training
sets, each input position is routed by its label through the listed
selectors, and a label is selected by exactly one histogram unless it
equals clump_id - 1 (with clump_id ≥ 1), in which case it is selected by
none. -/
theorem spatial_model_trainsets_coverage (data_start : List Point)
    (data_id : List ℕ) (clump_id : ℕ)
    (hlen : data_id.length = data_start.length) :
    ∃ ms, SpatialModel_list_SH data_start data_id clump_id = some ms ∧
      ms = (modelSelectors clump_id).map
        (fun sel =>
          ((data_start.zip data_id).filter fun pr => sel pr.2).map Prod.fst) ∧
      ms.length = (clump_id - 1) + 1 ∧
      (∀ l : ℕ, (modelSelectors clump_id).countP (fun sel => sel l) =
        if 1 ≤ clump_id ∧ l = clump_id - 1 then 0 else 1) := by
  refine
    ⟨((List.range (clump_id - 1)).map fun i =>
        ((data_start.zip data_id).filter fun pr => pr.2 == i).map Prod.fst) ++
      [((data_start.zip data_id).filter fun pr =>
          decide (clump_id ≤ pr.2)).map Prod.fst],
      ?_, ?_, ?_, ?_⟩
  · simp [SpatialModel_list_SH, hlen]
  · simp only [modelSelectors, List.map_append, List.map_map]
    rfl
  · simp [modelSelectors]
  · intro l
    simp only [modelSelectors, List.countP_append, List.countP_map]
    have h1 : ((fun sel : ℕ → Bool => sel l) ∘ fun i => fun l' => l' == i) =
        (fun i => l == i) := rfl
    rw [h1, countP_range_beq]
    simp only [List.countP_cons, List.countP_nil]
    split_ifs with h2 h3 h3 <;> simp_all <;> omega

/-- C2 witness: the amended theorem applied to one position labeled 0
with clump_id = 1. -/
theorem spatial_model_trainsets_coverage_witness :
    ∃ ms, SpatialModel_list_SH [((5 : ℚ), (6 : ℚ))] [0] 1 = some ms ∧
      ms = (modelSelectors 1).map
        (fun sel =>
          (([((5 : ℚ), (6 : ℚ))].zip [0]).filter fun pr => sel pr.2).map
            Prod.fst) ∧
      ms.length = (1 - 1) + 1 ∧
      (∀ l : ℕ, (modelSelectors 1).countP (fun sel => sel l) =
        if 1 ≤ 1 ∧ l = 1 - 1 then 0 else 1) :=
  spatial_model_trainsets_coverage [((5 : ℚ), (6 : ℚ))] [0] 1 rfl

/-- Translating a nonempty trajectory by (its first point minus `prev`)
puts its first point at `prev`. -/
theorem head_map_sub_off (traj : List Point) (prev : Point) (h : traj ≠ []) :
    (traj.map fun p => p - ((traj.getD 0 (0, 0)) - prev)).getD 0 (0, 0) =
      prev := by
  cases traj with
  | nil => exact absurd rfl h
  | cons a t => simp [sub_sub_cancel]

/-- Loop invariant of `v2mGo`: with matching lengths and a spline
evaluator that returns `neval > 0` points, the recursion succeeds, keeps
one trajectory per sub-stroke, starts the first trajectory at the
incoming pen position, and starts each following trajectory at the last
point of the one before it. -/
theorem v2mGo_spec (se : List Point → ℕ → List Point) (neval : ℕ)
    (hse : ∀ cpts, (se cpts neval).length = neval) (hpos : 0 < neval) :
    ∀ (shapes : List (List Point)) (invscales : List ℚ) (prev : Point),
      shapes.length = invscales.length →
      ∃ m msp, v2mGo se neval shapes invscales prev = some (m, msp) ∧
        m.length = shapes.length ∧
        (0 < shapes.length → (m.getD 0 []).getD 0 (0, 0) = prev) ∧
        (∀ i, i + 1 < m.length →
          (m.getD (i + 1) []).getD 0 (0, 0) = (m.getD i []).getLastD (0, 0))
  | [], [], prev, _ => by
    refine ⟨[], [], rfl, rfl, by simp, by simp⟩
  | cpts :: ss, s :: is, prev, hlen => by
    have hlen' : ss.length = is.length := by simpa using hlen
    have htraj : se (cpts.map fun p => (s * p.1, s * p.2)) neval ≠ [] := by
      have := hse (cpts.map fun p => (s * p.1, s * p.2))
      intro hnil
      rw [hnil] at this
      simp at this
      omega
    obtain ⟨m', msp', hgo, hlenm, hhead, hchain⟩ :=
      v2mGo_spec se neval hse hpos ss is
        (((se (cpts.map fun p => (s * p.1, s * p.2)) neval).map fun p =>
          p - (((se (cpts.map fun p => (s * p.1, s * p.2)) neval).getD 0
            (0, 0)) - prev)).getLastD (0, 0)) hlen'
    refine
      ⟨((se (cpts.map fun p => (s * p.1, s * p.2)) neval).map fun p =>
          p - (((se (cpts.map fun p => (s * p.1, s * p.2)) neval).getD 0
            (0, 0)) - prev)) :: m',
        ((cpts.map fun p => (s * p.1, s * p.2)).map fun p =>
          p - (((se (cpts.map fun p => (s * p.1, s * p.2)) neval).getD 0
            (0, 0)) - prev)) :: msp',
        ?_, ?_, ?_, ?_⟩
    · show v2mGo se neval (cpts :: ss) (s :: is) prev = _
      simp only [v2mGo]
      rw [hgo]
    · simpa using hlenm
    · intro _
      simpa using head_map_sub_off
        (se (cpts.map fun p => (s * p.1, s * p.2)) neval) prev htraj
    · intro i hi
      match i with
      | 0 =>
        have hss : 0 < ss.length := by
          have : 0 + 1 < m'.length + 1 := by simpa using hi
          omega
        simpa using (hhead (hlenm ▸ hss))
      | j + 1 =>
        have hj : j + 1 < m'.length := by simpa using hi
        simpa using hchain j hj

/-- C4.  For every valid input (one inverse scale per sub-stroke, a
spline evaluator producing `neval > 0` points), `vanilla_to_motor`
returns a motor trajectory that is positionally continuous: the first
evaluated point of sub-stroke 0 is `first_pos`, and the first evaluated
point of sub-stroke i+1 equals the last evaluated point of sub-stroke i
(exactly, in rational arithmetic). -/
theorem vanilla_to_motor_continuity (se : List Point → ℕ → List Point)
    (neval : ℕ) (shapes : List (List Point)) (invscales : List ℚ)
    (first_pos : Point) (hlen : shapes.length = invscales.length)
    (hse : ∀ cpts, (se cpts neval).length = neval) (hpos : 0 < neval) :
    ∃ motor mspline,
      vanilla_to_motor se shapes invscales first_pos neval =
        some (motor, mspline) ∧
      motor.length = shapes.length ∧
      (0 < shapes.length → (motor.getD 0 []).getD 0 (0, 0) = first_pos) ∧
      (∀ i, i + 1 < motor.length →
        (motor.getD (i + 1) []).getD 0 (0, 0) =
          (motor.getD i []).getLastD (0, 0)) := by
  obtain ⟨m, msp, hgo, h1, h2, h3⟩ :=
    v2mGo_spec se neval hse hpos shapes invscales first_pos hlen
  exact ⟨m, msp, hgo, h1, h2, h3⟩

/-- C4 witness: two sub-strokes through a constant spline evaluator. -/
theorem vanilla_to_motor_continuity_witness :
    ∃ motor mspline,
      vanilla_to_motor (fun _ n => List.replicate n ((1 : ℚ), (1 : ℚ)))
        [[((0 : ℚ), (0 : ℚ))], [((0 : ℚ), (0 : ℚ))]] [1, 1] (5, 5) 2 =
        some (motor, mspline) ∧
      motor.length = 2 ∧
      (0 < ([[((0 : ℚ), (0 : ℚ))], [((0 : ℚ), (0 : ℚ))]] :
          List (List Point)).length →
        (motor.getD 0 []).getD 0 (0, 0) = (5, 5)) ∧
      (∀ i, i + 1 < motor.length →
        (motor.getD (i + 1) []).getD 0 (0, 0) =
          (motor.getD i []).getLastD (0, 0)) :=
  vanilla_to_motor_continuity (fun _ n => List.replicate n ((1 : ℚ), (1 : ℚ)))
    2 [[((0 : ℚ), (0 : ℚ))], [((0 : ℚ), (0 : ℚ))]] [1, 1] (5, 5) rfl
    (fun cpts => by simp) (by norm_num)

/-- With one inverse scale per sub-stroke, `v2mGo` always succeeds. -/
theorem v2mGo_isSome (se : List Point → ℕ → List Point) (neval : ℕ) :
    ∀ (ss : List (List Point)) (is : List ℚ) (prev : Point),
      ss.length = is.length → ∃ r, v2mGo se neval ss is prev = some r
  | [], [], _, _ => ⟨([], []), rfl⟩
  | cpts :: ss, s :: is, prev, h => by
    have h' : ss.length = is.length := by simpa using h
    obtain ⟨⟨m, msp⟩, hr⟩ :=
      v2mGo_isSome se neval ss is
        (((se (cpts.map fun p => (s * p.1, s * p.2)) neval).map fun p =>
          p - (((se (cpts.map fun p => (s * p.1, s * p.2)) neval).getD 0
            (0, 0)) - prev)).getLastD (0, 0)) h'
    refine ⟨(((se (cpts.map fun p => (s * p.1, s * p.2)) neval).map fun p =>
        p - (((se (cpts.map fun p => (s * p.1, s * p.2)) neval).getD 0
          (0, 0)) - prev)) :: m,
      ((cpts.map fun p => (s * p.1, s * p.2)).map fun p =>
        p - (((se (cpts.map fun p => (s * p.1, s * p.2)) neval).getD 0
          (0, 0)) - prev)) :: msp), ?_⟩
    simp only [v2mGo]
    rw [hr]

/-- C7.  Reading a stroke token's motor trajectory or motor spline with
the position unset hits the assertion; with the position set (and one
inverse scale per sub-stroke, as every constructed token has) both
properties succeed and return exactly the two components of
`vanilla_to_motor(shapes, invscales, position)`. -/
theorem stroke_token_motor_requires_position
    (se : List Point → ℕ → List Point) (tok : StrokeToken) :
    (tok.position = none →
      tok.motor se = Except.error "AssertionError" ∧
      tok.motor_spline se = Except.error "AssertionError") ∧
    (∀ p, tok.position = some p → tok.shapes.length = tok.invscales.length →
      ∃ m s, vanilla_to_motor se tok.shapes tok.invscales p = some (m, s) ∧
        tok.motor se = Except.ok m ∧ tok.motor_spline se = Except.ok s) := by
  constructor
  · intro hpos
    constructor
    · simp [StrokeToken.motor, hpos]
    · simp [StrokeToken.motor_spline, hpos]
  · intro p hpos hlen
    obtain ⟨⟨m, s⟩, hr⟩ :=
      v2mGo_isSome se 200 tok.shapes tok.invscales p hlen
    refine ⟨m, s, hr, ?_, ?_⟩
    · simp [StrokeToken.motor, hpos, vanilla_to_motor, hr]
    · simp [StrokeToken.motor_spline, hpos, vanilla_to_motor, hr]

/-- C7 witness: a freshly constructed token (position `None`) fails both
accessors; the same token with a position succeeds through
`vanilla_to_motor`. -/
theorem stroke_token_motor_requires_position_witness :
    ((mkStrokeToken [[((0 : ℚ), (0 : ℚ))]] [1] (0, 1) (0, 1)).motor
        (fun _ n => List.replicate n ((0 : ℚ), (0 : ℚ))) =
      Except.error "AssertionError") ∧
    (∃ m s,
      vanilla_to_motor (fun _ n => List.replicate n ((0 : ℚ), (0 : ℚ)))
        [[((0 : ℚ), (0 : ℚ))]] [1] (2, 3) = some (m, s) ∧
      (⟨[[((0 : ℚ), (0 : ℚ))]], [1], some (2, 3), (0, 1), (0, 1)⟩ :
          StrokeToken).motor
        (fun _ n => List.replicate n ((0 : ℚ), (0 : ℚ))) = Except.ok m ∧
      (⟨[[((0 : ℚ), (0 : ℚ))]], [1], some (2, 3), (0, 1), (0, 1)⟩ :
          StrokeToken).motor_spline
        (fun _ n => List.replicate n ((0 : ℚ), (0 : ℚ))) = Except.ok s) :=
  ⟨((stroke_token_motor_requires_position
      (fun _ n => List.replicate n ((0 : ℚ), (0 : ℚ)))
      (mkStrokeToken [[((0 : ℚ), (0 : ℚ))]] [1] (0, 1) (0, 1))).1 rfl).1,
    (stroke_token_motor_requires_position
      (fun _ n => List.replicate n ((0 : ℚ), (0 : ℚ)))
      (⟨[[((0 : ℚ), (0 : ℚ))]], [1], some (2, 3), (0, 1), (0, 1)⟩ :
        StrokeToken)).2 (2, 3) rfl rfl⟩

/-- C9.  With the position unset, `parameters()` is the three-element
list whose third entry is the unset position (no precondition guards
it), so `train()` and `eval()` fail on that entry, while `lbs()` and
`ubs()` still succeed: they return their three-entry bound lists and do
not depend on the position at all. -/
theorem stroke_token_unset_position_behavior (tok : StrokeToken) (eps : ℚ)
    (hpos : tok.position = none) :
    tok.parameters = [some (StrokeParam.pshapes tok.shapes),
      some (StrokeParam.pinv tok.invscales), none] ∧
    tok.parameters.length = 3 ∧
    tok.train = Except.error "AttributeError" ∧
    tok.eval = Except.error "AttributeError" ∧
    ((tok.lbs eps).length = 3 ∧ (tok.ubs eps).length = 3) ∧
    (∀ p' : Option Point,
      StrokeToken.lbs ⟨tok.shapes, tok.invscales, p', tok.xlim, tok.ylim⟩ eps =
        tok.lbs eps ∧
      StrokeToken.ubs ⟨tok.shapes, tok.invscales, p', tok.xlim, tok.ylim⟩ eps =
        tok.ubs eps) := by
  refine ⟨?_, rfl, ?_, ?_, ⟨rfl, rfl⟩, fun p' => ⟨rfl, rfl⟩⟩
  · simp [StrokeToken.parameters, hpos]
  · simp [StrokeToken.train, StrokeToken.setGradAll, StrokeToken.parameters,
      hpos, requiresGradLoop]
  · simp [StrokeToken.eval, StrokeToken.setGradAll, StrokeToken.parameters,
      hpos, requiresGradLoop]

/-- C9 witness: a freshly constructed token. -/
theorem stroke_token_unset_position_behavior_witness :
    (mkStrokeToken [[((0 : ℚ), (0 : ℚ))]] [1] (0, 1) (0, 1)).parameters =
      [some (StrokeParam.pshapes [[((0 : ℚ), (0 : ℚ))]]),
        some (StrokeParam.pinv [1]), none] ∧
    (mkStrokeToken [[((0 : ℚ), (0 : ℚ))]] [1] (0, 1) (0, 1)).train =
      Except.error "AttributeError" :=
  ⟨(stroke_token_unset_position_behavior
      (mkStrokeToken [[((0 : ℚ), (0 : ℚ))]] [1] (0, 1) (0, 1)) (1 / 10000)
      rfl).1,
    (stroke_token_unset_position_behavior
      (mkStrokeToken [[((0 : ℚ), (0 : ℚ))]] [1] (0, 1) (0, 1)) (1 / 10000)
      rfl).2.2.1⟩

/-- C8.  The scale CPD raises assertion failures on malformed inputs —
a non-1-dimensional id array for the sampler; a non-1-dimensional
`invscales` or id array, or mismatched lengths, for the scorer — and
under the library's uniform flag both delegate to the uniform fallback
instead of constructing a Gamma distribution. -/
theorem cpd_scale_asserts_and_unif :
    (∀ (lib : Library) (subid : NDTensor ℕ), subid.shape.length ≠ 1 →
      sample_invscale_type lib subid = Except.error "AssertionError") ∧
    (∀ (lib : Library) (invscales : NDTensor ℚ) (subid : NDTensor ℕ),
      invscales.shape.length ≠ 1 ∨ subid.shape.length ≠ 1 →
      score_invscale_type lib invscales subid =
        Except.error "AssertionError") ∧
    (∀ (lib : Library) (invscales : NDTensor ℚ) (subid : NDTensor ℕ),
      invscales.shape.length = 1 → subid.shape.length = 1 →
      invscales.len ≠ subid.len →
      score_invscale_type lib invscales subid =
        Except.error "AssertionError") ∧
    (∀ (lib : Library) (subid : NDTensor ℕ), lib.isunif = true →
      subid.shape.length = 1 →
      sample_invscale_type lib subid = Except.ok ScaleResult.unif) ∧
    (∀ (lib : Library) (invscales : NDTensor ℚ) (subid : NDTensor ℕ),
      lib.isunif = true → invscales.shape.length = 1 →
      subid.shape.length = 1 → invscales.len = subid.len →
      score_invscale_type lib invscales subid =
        Except.ok ScaleResult.unif) := by
  refine ⟨?_, ?_, ?_, ?_, ?_⟩
  · intro lib subid h
    simp [sample_invscale_type, h]
  · intro lib invscales subid h
    rcases h with h | h
    · simp [score_invscale_type, h]
    · by_cases hv : invscales.shape.length = 1
      · simp [score_invscale_type, hv, h]
      · simp [score_invscale_type, hv]
  · intro lib invscales subid h1 h2 h3
    simp [score_invscale_type, h1, h2, h3]
  · intro lib subid hu h
    simp [sample_invscale_type, h, hu]
  · intro lib invscales subid hu h1 h2 h3
    simp [score_invscale_type, h1, h2, h3, hu]

/-- C8 witness: concrete malformed and well-formed tensors against a
uniform-flagged library. -/
theorem cpd_scale_asserts_and_unif_witness :
    sample_invscale_type ⟨true, [(2, 3)]⟩ ⟨[2, 2], [0, 1, 2, 3]⟩ =
      Except.error "AssertionError" ∧
    score_invscale_type ⟨true, [(2, 3)]⟩ ⟨[2], [1, 1]⟩ ⟨[2, 2], [0, 1, 2, 3]⟩ =
      Except.error "AssertionError" ∧
    score_invscale_type ⟨true, [(2, 3)]⟩ ⟨[3], [1, 1, 1]⟩ ⟨[2], [0, 1]⟩ =
      Except.error "AssertionError" ∧
    sample_invscale_type ⟨true, [(2, 3)]⟩ ⟨[2], [0, 1]⟩ =
      Except.ok ScaleResult.unif ∧
    score_invscale_type ⟨true, [(2, 3)]⟩ ⟨[2], [1, 1]⟩ ⟨[2], [0, 1]⟩ =
      Except.ok ScaleResult.unif :=
  ⟨cpd_scale_asserts_and_unif.1 ⟨true, [(2, 3)]⟩ ⟨[2, 2], [0, 1, 2, 3]⟩
      (by simp),
    cpd_scale_asserts_and_unif.2.1 ⟨true, [(2, 3)]⟩ ⟨[2], [1, 1]⟩
      ⟨[2, 2], [0, 1, 2, 3]⟩ (Or.inr (by simp)),
    cpd_scale_asserts_and_unif.2.2.1 ⟨true, [(2, 3)]⟩ ⟨[3], [1, 1, 1]⟩
      ⟨[2], [0, 1]⟩ rfl rfl (by simp [NDTensor.len]),
    cpd_scale_asserts_and_unif.2.2.2.1 ⟨true, [(2, 3)]⟩ ⟨[2], [0, 1]⟩ rfl rfl,
    cpd_scale_asserts_and_unif.2.2.2.2 ⟨true, [(2, 3)]⟩ ⟨[2], [1, 1]⟩
      ⟨[2], [0, 1]⟩ rfl rfl rfl rfl⟩

/-- The rejection loop accepts exactly the first generated walk that
meets the length bound. -/
theorem sampleLoop_spec {ρ α : Type} (make : ρ → List α × ρ) (max_len : ℕ) :
    ∀ (fuel : ℕ) (r : ρ) (w : List α),
      sampleLoop make max_len fuel r = some w →
      w.length ≤ max_len ∧
      ∃ k, w = walkSeq make r k ∧
        ∀ j < k, max_len < (walkSeq make r j).length
  | 0, _, _, h => by simp [sampleLoop] at h
  | fuel + 1, r, w, h => by
    by_cases hlen : (make r).1.length ≤ max_len
    · have hw : w = (make r).1 := by
        simp [sampleLoop, hlen] at h
        exact h.symm
      subst hw
      exact ⟨hlen, 0, rfl, by omega⟩
    · have h' : sampleLoop make max_len fuel (make r).2 = some w := by
        simpa [sampleLoop, hlen] using h
      obtain ⟨hb, k, hk, hj⟩ := sampleLoop_spec make max_len fuel (make r).2 w h'
      refine ⟨hb, k + 1, hk, ?_⟩
      intro j hjk
      match j with
      | 0 => exact Nat.lt_of_not_le hlen
      | j' + 1 => exact hj j' (by omega)

/-- C6.  `sample()` draws `exp_wt_start` and `lambda_soft` from the
configured candidate sets once, before the loop; whenever the rejection
loop returns a walk, that walk's length is at most `max_len`, and it is
the first walk in the sequence of walk-builder calls meeting the bound
(all earlier walks were strictly longer). -/
theorem random_walker_sample_bound {ρ α : Type}
    (int_exp_wt int_lambda_soft : List ℚ) (i1 i2 : ℕ)
    (make : ρ → List α × ρ) (max_len fuel : ℕ) (r : ρ) :
    (int_exp_wt ≠ [] →
      (RandomWalker_sample int_exp_wt int_lambda_soft i1 i2 make max_len fuel
        r).1.1 ∈ int_exp_wt) ∧
    (int_lambda_soft ≠ [] →
      (RandomWalker_sample int_exp_wt int_lambda_soft i1 i2 make max_len fuel
        r).1.2 ∈ int_lambda_soft) ∧
    (∀ w,
      (RandomWalker_sample int_exp_wt int_lambda_soft i1 i2 make max_len fuel
        r).2 = some w →
      w.length ≤ max_len ∧
      ∃ k, w = walkSeq make r k ∧
        ∀ j < k, max_len < (walkSeq make r j).length) := by
  refine ⟨?_, ?_, ?_⟩
  · intro hne
    have hlt : i1 % int_exp_wt.length < int_exp_wt.length :=
      Nat.mod_lt _ (List.length_pos.mpr hne)
    show int_exp_wt.getD (i1 % int_exp_wt.length) 0 ∈ int_exp_wt
    rw [List.getD_eq_getElem int_exp_wt 0 hlt]
    exact List.getElem_mem hlt
  · intro hne
    have hlt : i2 % int_lambda_soft.length < int_lambda_soft.length :=
      Nat.mod_lt _ (List.length_pos.mpr hne)
    show int_lambda_soft.getD (i2 % int_lambda_soft.length) 0 ∈ int_lambda_soft
    rw [List.getD_eq_getElem int_lambda_soft 0 hlt]
    exact List.getElem_mem hlt
  · intro w hw
    exact sampleLoop_spec make max_len fuel r w hw

/-- C6 witness: a one-element candidate set and a walk builder whose
first walk already meets the bound. -/
theorem random_walker_sample_bound_witness :
    ((RandomWalker_sample [(1 : ℚ)] [(2 : ℚ)] 0 0
        (fun r : ℕ => ([7], r)) 1 1 0).1.1 ∈ [(1 : ℚ)]) ∧
    ((RandomWalker_sample [(1 : ℚ)] [(2 : ℚ)] 0 0
        (fun r : ℕ => ([7], r)) 1 1 0).2 = some [7] ∧
      ([7] : List ℕ).length ≤ 1) :=
  ⟨(random_walker_sample_bound [(1 : ℚ)] [(2 : ℚ)] 0 0
      (fun r : ℕ => ([7], r)) 1 1 0).1 (by simp),
    rfl,
    ((random_walker_sample_bound [(1 : ℚ)] [(2 : ℚ)] 0 0
      (fun r : ℕ => ([7], r)) 1 1 0).2.2 [7] rfl).1⟩

/-- C5 counterexample: epsilon = 1 satisfies `epsilon > 0`, yet on a
2×2 rendering whose noiseless image is all zeros (the only stroke is
entirely off the page) the blended pixels land at 1, exactly as far from
0.5 as before — not strictly closer. -/
theorem render_image_epsilon_one_cex :
    (0 : ℚ) < 1 ∧
    (render_image (fun _ => 0) (fun _ _ => [[1]]) [[((0 : ℚ), (100 : ℚ))]] 0 0
        ⟨2, 2, 1 / 2, 1, 1, 3, 2, 2, BroadenMode.Lake⟩).map (fun r => r.1.data) =
      some [0, 0, 0, 0] ∧
    (render_image (fun _ => 0) (fun _ _ => [[1]]) [[((0 : ℚ), (100 : ℚ))]] 1 0
        ⟨2, 2, 1 / 2, 1, 1, 3, 2, 2, BroadenMode.Lake⟩).map (fun r => r.1.data) =
      some [1, 1, 1, 1] ∧
    ¬(|(1 : ℚ) - 1 / 2| < |(0 : ℚ) - 1 / 2|) := by
  have haccum : accumStrokes (fun _ => 0)
      (⟨2, 2, 1 / 2, 1, 1, 3, 2, 2, BroadenMode.Lake⟩ : Params)
      [[((0 : ℚ), (100 : ℚ))]] (zeroImg 2 2) false =
      some (zeroImg 2 2, true) := by
    norm_num [accumStrokes, add_stroke, zeroImg, space_motor_to_img, pointMul,
      flipPoint, space_flip, check_bounds, point_out_of_bounds, qceil_eq]
  have hbb : broaden_and_blur (fun _ _ => [[1]]) (zeroImg 2 2) 0
      (⟨2, 2, 1 / 2, 1, 1, 3, 2, 2, BroadenMode.Lake⟩ : Params) =
      ⟨2, 2, [0, 0, 0, 0]⟩ := by
    have hK : H_broaden ⟨2, 2, 1 / 2, 1, 1, 3, 2, 2, BroadenMode.Lake⟩ =
        [[1 / 24, 1 / 12, 1 / 24], [1 / 12, 1 / 2, 1 / 12],
          [1 / 24, 1 / 12, 1 / 24]] := by
      norm_num [H_broaden]
    have himf : imfilter (zeroImg 2 2)
        [[1 / 24, 1 / 12, 1 / 24], [1 / 12, 1 / 2, 1 / 12],
          [1 / 24, 1 / 12, 1 / 24]] = ⟨2, 2, [0, 0, 0, 0]⟩ := by
      norm_num [imfilter, Img.pix, zeroImg, List.replicate,
        (show List.range 4 = [0, 1, 2, 3] by decide),
        (show List.range 3 = [0, 1, 2] by decide)]
      simp
    norm_num [broaden_and_blur, iterApply, hK, himf, clampMax1, clamp01]
  refine ⟨by norm_num, ?_, ?_, by norm_num⟩
  · simp only [render_image]
    rw [haccum]
    simp only [Option.map_some']
    rw [if_neg (lt_irrefl (0 : ℚ))]
    rw [hbb]
  · simp only [render_image]
    rw [haccum]
    simp only [Option.map_some']
    rw [if_pos (show (0 : ℚ) < 1 by norm_num)]
    rw [hbb]
    simp [blendImg, blendPix]

/-- C5 (amended).  With epsilon = 0, `render_image` is exactly the
broadened/blurred accumulation with no blending; with 0 < epsilon < 1
it applies `(1-epsilon)*p + epsilon*(1-p)` pixelwise, which moves every
pixel strictly toward 0.5 when p ≠ 0.5 and keeps pixels already at 0.5
fixed (at epsilon = 1 the distance to 0.5 is preserved, not reduced, so
`epsilon > 0` alone is not enough for strictness). -/
theorem render_image_noise_blend (sq : ℚ → ℚ)
    (fsp : ℕ → ℚ → List (List ℚ)) (strokes : List (List Point))
    (blur_sigma : ℚ) (ps : Params) :
    (render_image sq fsp strokes 0 blur_sigma ps =
      (accumStrokes sq ps strokes (zeroImg ps.imsizeH ps.imsizeW) false).map
        (fun r => (broaden_and_blur fsp r.1 blur_sigma ps, r.2))) ∧
    (∀ epsilon : ℚ, 0 < epsilon → epsilon < 1 →
      ∀ D flag,
        accumStrokes sq ps strokes (zeroImg ps.imsizeH ps.imsizeW) false =
          some (D, flag) →
        render_image sq fsp strokes epsilon blur_sigma ps =
          some (blendImg epsilon (broaden_and_blur fsp D blur_sigma ps),
            flag) ∧
        (∀ v : ℚ,
          blendPix epsilon v = (1 - epsilon) * v + epsilon * (1 - v) ∧
          (v ≠ 1 / 2 → |blendPix epsilon v - 1 / 2| < |v - 1 / 2|) ∧
          (v = 1 / 2 → blendPix epsilon v = 1 / 2)) ∧
        (∀ i, i < (broaden_and_blur fsp D blur_sigma ps).data.length →
          (blendImg epsilon (broaden_and_blur fsp D blur_sigma ps)).data.getD
              i 0 =
            blendPix epsilon
              ((broaden_and_blur fsp D blur_sigma ps).data.getD i 0))) := by
  constructor
  · simp [render_image]
  · intro epsilon h0 h1 D flag haccum
    refine ⟨?_, ?_, ?_⟩
    · simp [render_image, haccum, h0]
    · intro v
      refine ⟨rfl, ?_, ?_⟩
      · intro hv
        have hfac : blendPix epsilon v - 1 / 2 =
            (1 - 2 * epsilon) * (v - 1 / 2) := by
          simp only [blendPix]
          ring
        rw [hfac, abs_mul]
        have hvpos : 0 < |v - 1 / 2| := abs_pos.mpr (sub_ne_zero.mpr hv)
        have habs : |1 - 2 * epsilon| < 1 := by
          rw [abs_lt]
          constructor <;> linarith
        calc |1 - 2 * epsilon| * |v - 1 / 2| < 1 * |v - 1 / 2| :=
              (mul_lt_mul_right hvpos).mpr habs
          _ = |v - 1 / 2| := one_mul _
      · intro hv
        subst hv
        simp only [blendPix]
        ring
    · intro i hi
      simp only [blendImg, List.getD_eq_getElem?_getD, List.getElem?_map,
        List.getElem?_eq_getElem hi]
      rfl

/-- C5 witness: the amended theorem at a concrete off-page stroke,
epsilon = 1/4, where the zero pixel moves from 0 to 1/4, strictly closer
to 0.5. -/
theorem render_image_noise_blend_witness :
    render_image (fun _ => 0) (fun _ _ => [[1]]) [[((0 : ℚ), (100 : ℚ))]]
        (1 / 4) 0 ⟨2, 2, 1 / 2, 1, 1, 3, 2, 2, BroadenMode.Lake⟩ =
      some (blendImg (1 / 4)
        (broaden_and_blur (fun _ _ => [[1]]) (zeroImg 2 2) 0
          ⟨2, 2, 1 / 2, 1, 1, 3, 2, 2, BroadenMode.Lake⟩), true) ∧
    |blendPix (1 / 4) 0 - 1 / 2| < |(0 : ℚ) - 1 / 2| := by
  have haccum : accumStrokes (fun _ => 0)
      (⟨2, 2, 1 / 2, 1, 1, 3, 2, 2, BroadenMode.Lake⟩ : Params)
      [[((0 : ℚ), (100 : ℚ))]] (zeroImg 2 2) false = some (zeroImg 2 2, true) := by
    norm_num [accumStrokes, add_stroke, zeroImg, space_motor_to_img, pointMul,
      flipPoint, space_flip, check_bounds, point_out_of_bounds, qceil_eq]
  have h := (render_image_noise_blend (fun _ => 0) (fun _ _ => [[1]])
    [[((0 : ℚ), (100 : ℚ))]] 0
    ⟨2, 2, 1 / 2, 1, 1, 3, 2, 2, BroadenMode.Lake⟩).2 (1 / 4) (by norm_num)
    (by norm_num) (zeroImg 2 2) true haccum
  exact ⟨h.1, ((h.2.1 0).2.1 (by norm_num))⟩
